import Mathlib

/-!
Verification of the EchoPrep-AI repository against its natural-language
specification.  The definitions below are shallow embeddings of the
TypeScript source:

* `RealtimeVoice` embeds the client voice-activity-detection loop of
  `src/src/utils/RealtimeInterview.ts` (class `RealtimeInterviewSystem`)
  as an event-step relation on an explicit state record.
* Later sections embed the Express route handlers of
  `src/server/src/routes/resumes.ts` and
  `src/server/src/routes/interviews.ts`, the `requireAuth` middleware,
  and the question-selection logic of `RealtimeInterviewSystem`.

Machine realities that the claims do not touch (actual audio buffers, the
browser speech APIs, the Postgres wire protocol) are abstracted: audio
levels become rational dB values supplied with each tick event, database
tables become lists of rows, and library functions (bcrypt, jwt, zod
email format) become function parameters of the theorems.
-/

/-- JS `String.prototype.trim`: strip leading and trailing whitespace.
Defined structurally over the character list so that it evaluates inside
the kernel (the library `String.trim` is defined by well-founded recursion
over byte positions and does not reduce). -/
def jsTrim (s : String) : String :=
  ⟨((s.data.dropWhile Char.isWhitespace).reverse.dropWhile Char.isWhitespace).reverse⟩

/-- JS `String.prototype.toLowerCase` (ASCII, which covers the emails the
routes lowercase). -/
def jsToLowerCase (s : String) : String := ⟨s.data.map Char.toLower⟩

/-- JS `String.prototype.startsWith`. -/
def jsStartsWith (s p : String) : Bool := p.data.isPrefixOf s.data

/-- JS `String.prototype.slice(n)` for a nonnegative `n` (character
based; the tokens sliced here are ASCII). -/
def jsDrop (s : String) (n : Nat) : String := ⟨s.data.drop n⟩

namespace RealtimeVoice

/-- Threshold constants of `RealtimeInterviewSystem`
(`src/src/utils/RealtimeInterview.ts`, lines 49-53). -/
def SILENCE_THRESHOLD : ℚ := -50

/-- Silence duration in ms before a buffered response is processed. -/
def SILENCE_DURATION : Nat := 1500

/-- Minimum speech duration in ms for the silence timer to be armed. -/
def MIN_SPEECH_DURATION : Nat := 500

/-- Speech classification threshold in dB. -/
def SPEECH_THRESHOLD : ℚ := -45

/-- The interval argument of `setInterval` in
`startVoiceActivityDetection` (line 342): the analyser is sampled every
100 ms. -/
def VAD_INTERVAL_MS : Nat := 100

/-- The delay of the `setTimeout` that restarts recognition after an
error (`recognition.onerror`, line 274) and after TTS ends. -/
def RESTART_DELAY_MS : Nat := 100

/-- State of the `RealtimeInterviewSystem` voice loop.  The fields mirror
the class fields used by the VAD / silence-timer logic; `silenceDeadline`
models the pending `silenceTimer` as the absolute time at which it will
fire; `processed` records the responses handed to `processUserResponse`.
`lastSpeakTick` and `lastStopTick` are ghost fields recording the time of
the most recent tick that classified the user as speaking, resp. of the
most recent tick on which the user transitioned from speaking to silent;
they are written only by the step function and read only by theorems. -/
structure VState where
  now : Nat
  isAISpeaking : Bool
  isUserSpeaking : Bool
  silenceDeadline : Option Nat
  userSpeechBuffer : String
  lastUserSpeechTime : Nat
  recognitionActive : Bool
  processed : List String
  lastSpeakTick : Option Nat
  lastStopTick : Option Nat
  deriving Repr, DecidableEq

/-- Events of the voice loop.  Each carries the absolute time in ms at
which the browser delivers the callback.
* `vadTick t lvl`: one firing of the `setInterval` callback of
  `startVoiceActivityDetection`, with `lvl` the dB value computed by
  `getAudioLevel`.
* `silenceFire t`: the `setTimeout` callback armed by `startSilenceTimer`
  fires (only possible at the exact deadline of a pending timer).
* `recogResult t txt`: `recognition.onresult` delivers a nonempty final
  transcript `txt`.
* `aiStart t`: `speakText` begins (sets `isAISpeaking`, stops
  recognition).
* `aiEnd t`: `synthesis.onend` runs (clears `isAISpeaking`).
* `recogStart t`: one of the `recognition.start()` call sites runs. -/
inductive VEvent where
  | vadTick (t : Nat) (lvl : ℚ)
  | silenceFire (t : Nat)
  | recogResult (t : Nat) (txt : String)
  | aiStart (t : Nat)
  | aiEnd (t : Nat)
  | recogStart (t : Nat)
  deriving Repr, DecidableEq

/-- One event step.  `none` means the event is not enabled at this state
(time would run backwards, a timer fires without being armed, or a
recognition result arrives while recognition is stopped). -/
def step (s : VState) : VEvent → Option VState
  | .vadTick t lvl =>
    if t < s.now then none
    else if s.isAISpeaking then
      -- lines 318-325: do not detect user speech while AI is speaking
      some { s with now := t, isUserSpeaking := false }
    else
      -- lines 327-341
      let speaking : Bool := decide (SPEECH_THRESHOLD < lvl)
      if speaking = s.isUserSpeaking then
        some { s with now := t,
                      lastSpeakTick := if speaking then some t else s.lastSpeakTick }
      else if speaking then
        -- user started speaking: clearSilenceTimer
        some { s with now := t, isUserSpeaking := true,
                      silenceDeadline := none, lastSpeakTick := some t }
      else if t - s.lastUserSpeechTime < MIN_SPEECH_DURATION then
        -- startSilenceTimer, early return: too short to be meaningful speech
        some { s with now := t, isUserSpeaking := false,
                      silenceDeadline := none, lastStopTick := some t }
      else
        -- startSilenceTimer arms the timer for SILENCE_DURATION ms
        some { s with now := t, isUserSpeaking := false,
                      silenceDeadline := some (t + SILENCE_DURATION),
                      lastStopTick := some t }
  | .silenceFire t =>
    if s.silenceDeadline = some t then
      if s.now ≤ t then
        -- lines 360-365: process the trimmed buffer when nonempty
        if jsTrim s.userSpeechBuffer = "" then
          some { s with now := t, silenceDeadline := none }
        else
          some { s with now := t, silenceDeadline := none,
                        processed := s.processed ++ [jsTrim s.userSpeechBuffer],
                        userSpeechBuffer := "" }
      else none
    else none
  | .recogResult t txt =>
    if t < s.now then none
    else if s.recognitionActive then
      if txt = "" then none
      else
        -- lines 260-263
        some { s with now := t,
                      userSpeechBuffer := s.userSpeechBuffer ++ txt ++ " ",
                      lastUserSpeechTime := t }
    else none
  | .aiStart t =>
    if t < s.now then none
    else
      -- speakText, lines 433-445: set isAISpeaking, stop recognition
      some { s with now := t, isAISpeaking := true, recognitionActive := false }
  | .aiEnd t =>
    if t < s.now then none
    else some { s with now := t, isAISpeaking := false }
  | .recogStart t =>
    if t < s.now then none
    else some { s with now := t, recognitionActive := true }

/-- The state right after `start()`: VAD running, recognition started,
no speech yet. -/
def init : VState :=
  { now := 0, isAISpeaking := false, isUserSpeaking := false,
    silenceDeadline := none, userSpeechBuffer := "",
    lastUserSpeechTime := 0, recognitionActive := true, processed := [],
    lastSpeakTick := none, lastStopTick := none }

/-- Run a list of events from a state. -/
def runFrom (s : VState) : List VEvent → Option VState
  | [] => some s
  | e :: es => (step s e).bind (fun s' => runFrom s' es)

/-- A state the voice loop can be in after some sequence of events. -/
def Reachable (s : VState) : Prop := ∃ es, runFrom init es = some s

/-- Invariant tying a pending silence deadline to the ghost history:
a pending deadline `d` was armed by a speaking-to-silent transition at
time `d - SILENCE_DURATION`, and no tick since then has classified the
user as speaking. -/
def Inv (s : VState) : Prop :=
  (∀ u, s.lastSpeakTick = some u → u ≤ s.now) ∧
  (s.isUserSpeaking = true → s.silenceDeadline = none) ∧
  (∀ d, s.silenceDeadline = some d →
    s.lastStopTick = some (d - SILENCE_DURATION) ∧
    SILENCE_DURATION ≤ d ∧ d - SILENCE_DURATION ≤ s.now ∧
    (∀ u, s.lastSpeakTick = some u → u ≤ d - SILENCE_DURATION))

theorem inv_init : Inv init := by
  refine ⟨?_, ?_, ?_⟩ <;> simp [init]

theorem inv_step (s : VState) (e : VEvent) (s' : VState)
    (hs : Inv s) (h : step s e = some s') : Inv s' := by
  obtain ⟨h1, h2, h3⟩ := hs
  cases e with
  | vadTick t lvl =>
    simp only [step] at h
    split at h
    · exact absurd h (by simp)
    · rename_i hlt
      have hnow : s.now ≤ t := Nat.le_of_not_lt hlt
      split at h
      · -- AI speaking branch
        cases h
        refine ⟨fun u hu => le_trans (h1 u hu) hnow, by simp, fun d hd => ?_⟩
        obtain ⟨ha, hb, hc, hd'⟩ := h3 d hd
        exact ⟨ha, hb, le_trans hc hnow, hd'⟩
      · rename_i hai
        split at h
        · -- speaking state unchanged
          rename_i hsame
          cases h
          refine ⟨?_, h2, fun d hd => ?_⟩
          · intro u hu
            split at hu
            · cases hu
              exact Nat.le_refl _
            · exact le_trans (h1 u hu) hnow
          · obtain ⟨ha, hb, hc, hd'⟩ := h3 d hd
            refine ⟨ha, hb, le_trans hc hnow, ?_⟩
            intro u hu
            split at hu
            · rename_i hsp
              have huser : s.isUserSpeaking = true := hsame.symm.trans hsp
              rw [h2 huser] at hd
              cases hd
            · exact hd' u hu
        · rename_i hsame
          split at h
          · -- transition to speaking: clearSilenceTimer
            cases h
            refine ⟨?_, fun _ => rfl, fun d hd => by cases hd⟩
            intro u hu
            cases hu
            exact Nat.le_refl _
          · split at h
            · -- stop, too short: silence timer not armed
              cases h
              exact ⟨fun u hu => le_trans (h1 u hu) hnow, by simp,
                     fun d hd => by cases hd⟩
            · -- stop: silence timer armed for t + SILENCE_DURATION
              cases h
              refine ⟨fun u hu => le_trans (h1 u hu) hnow, by simp, fun d hd => ?_⟩
              rw [Option.some_inj] at hd
              subst hd
              refine ⟨by rw [Nat.add_sub_cancel], Nat.le_add_left _ _,
                      by rw [Nat.add_sub_cancel], fun u hu => ?_⟩
              rw [Nat.add_sub_cancel]
              exact le_trans (h1 u hu) hnow
  | silenceFire t =>
    simp only [step] at h
    split at h
    · rename_i hdl
      split at h
      · rename_i hnow
        split at h <;> cases h <;>
          exact ⟨fun u hu => le_trans (h1 u hu) hnow, fun _ => rfl,
                 fun d hd => by cases hd⟩
      · exact absurd h (by simp)
    · exact absurd h (by simp)
  | recogResult t txt =>
    simp only [step] at h
    split at h
    · exact absurd h (by simp)
    · rename_i hlt
      have hnow : s.now ≤ t := Nat.le_of_not_lt hlt
      split at h
      · split at h
        · exact absurd h (by simp)
        · cases h
          refine ⟨fun u hu => le_trans (h1 u hu) hnow, h2, fun d hd => ?_⟩
          obtain ⟨ha, hb, hc, hd'⟩ := h3 d hd
          exact ⟨ha, hb, le_trans hc hnow, hd'⟩
      · exact absurd h (by simp)
  | aiStart t =>
    simp only [step] at h
    split at h
    · exact absurd h (by simp)
    · rename_i hlt
      have hnow : s.now ≤ t := Nat.le_of_not_lt hlt
      cases h
      refine ⟨fun u hu => le_trans (h1 u hu) hnow, h2, fun d hd => ?_⟩
      obtain ⟨ha, hb, hc, hd'⟩ := h3 d hd
      exact ⟨ha, hb, le_trans hc hnow, hd'⟩
  | aiEnd t =>
    simp only [step] at h
    split at h
    · exact absurd h (by simp)
    · rename_i hlt
      have hnow : s.now ≤ t := Nat.le_of_not_lt hlt
      cases h
      refine ⟨fun u hu => le_trans (h1 u hu) hnow, h2, fun d hd => ?_⟩
      obtain ⟨ha, hb, hc, hd'⟩ := h3 d hd
      exact ⟨ha, hb, le_trans hc hnow, hd'⟩
  | recogStart t =>
    simp only [step] at h
    split at h
    · exact absurd h (by simp)
    · rename_i hlt
      have hnow : s.now ≤ t := Nat.le_of_not_lt hlt
      cases h
      refine ⟨fun u hu => le_trans (h1 u hu) hnow, h2, fun d hd => ?_⟩
      obtain ⟨ha, hb, hc, hd'⟩ := h3 d hd
      exact ⟨ha, hb, le_trans hc hnow, hd'⟩

theorem inv_runFrom (s : VState) (es : List VEvent) (s' : VState)
    (hs : Inv s) (h : runFrom s es = some s') : Inv s' := by
  induction es generalizing s with
  | nil => simp [runFrom] at h; exact h ▸ hs
  | cons e es ih =>
    simp only [runFrom, Option.bind_eq_some] at h
    obtain ⟨s1, h1, h2⟩ := h
    exact ih s1 (inv_step s e s1 hs h1) h2

theorem inv_reachable (s : VState) (hs : Reachable s) : Inv s := by
  obtain ⟨es, h⟩ := hs
  exact inv_runFrom init es s inv_init h

end RealtimeVoice

namespace NaturalVoice

/-- Silence duration of `NaturalInterviewSystem`
(`src/src/utils/RealtimeInterview.ts`, line 631). -/
def SILENCE_DURATION : Nat := 1500

/-- Minimum speech duration of `NaturalInterviewSystem` (line 632). -/
def MIN_SPEECH_DURATION : Nat := 600

/-- The firing guard of `NaturalInterviewSystem.checkSilenceTimeout`
(lines 847-858): when its silence timer fires, the buffered response is
processed only when the trimmed buffer is nonempty, at least
`SILENCE_DURATION` ms have passed since the last detected sound, and the
computed speech duration reaches `MIN_SPEECH_DURATION`.  The JS
subtractions are over numbers, hence the integer arithmetic. -/
def checkSilenceFires (buffer : String)
    (now lastSoundDetected lastUserSpeechTime : Nat) : Bool :=
  decide (jsTrim buffer ≠ "") &&
  decide ((SILENCE_DURATION : ℤ) ≤ (now : ℤ) - lastSoundDetected) &&
  decide ((MIN_SPEECH_DURATION : ℤ) ≤
    (lastSoundDetected : ℤ) - lastUserSpeechTime + (buffer.length : ℤ) * 10)

end NaturalVoice

/-- C1: in the client voice-activity-detection loop the analyser is
sampled on a fixed 100 ms interval (the interval argument of
`setInterval` in `startVoiceActivityDetection`); a VAD tick taken while
the AI is not speaking classifies the user as speaking exactly when the
computed dB level exceeds `SPEECH_THRESHOLD`; and whenever a
silence-timer firing passes the buffered response to
`processUserResponse`, the timer was armed by a speaking-to-silent
transition exactly `SILENCE_DURATION = 1500` ms earlier and no tick since
then classified the user as speaking, i.e. the response is processed only
after at least 1500 ms of continuous detected silence following the end
of user speech.  The last conjunct is the matching guard of
`NaturalInterviewSystem.checkSilenceTimeout`: it processes the buffer
only when at least 1500 ms have passed since the last detected sound. -/
theorem c1_vad_sampling_threshold_and_silence :
    RealtimeVoice.VAD_INTERVAL_MS = 100 ∧
    RealtimeVoice.SILENCE_DURATION = 1500 ∧
    RealtimeVoice.SPEECH_THRESHOLD = -45 ∧
    (∀ s t lvl s', s.isAISpeaking = false →
      RealtimeVoice.step s (.vadTick t lvl) = some s' →
      (s'.isUserSpeaking = true ↔ RealtimeVoice.SPEECH_THRESHOLD < lvl)) ∧
    (∀ s t s', RealtimeVoice.Reachable s →
      RealtimeVoice.step s (.silenceFire t) = some s' →
      s'.processed ≠ s.processed →
      s'.processed = s.processed ++ [jsTrim s.userSpeechBuffer] ∧
      s.lastStopTick = some (t - RealtimeVoice.SILENCE_DURATION) ∧
      RealtimeVoice.SILENCE_DURATION ≤ t ∧
      (∀ u, s.lastSpeakTick = some u →
        u ≤ t - RealtimeVoice.SILENCE_DURATION)) ∧
    (∀ buffer now lastSound lastSpeech,
      NaturalVoice.checkSilenceFires buffer now lastSound lastSpeech = true →
      (NaturalVoice.SILENCE_DURATION : ℤ) ≤ (now : ℤ) - lastSound) := by
  refine ⟨rfl, rfl, rfl, ?_, ?_, ?_⟩
  · intro s t lvl s' hai h
    simp only [RealtimeVoice.step] at h
    split at h
    · exact absurd h (by simp)
    · split at h
      · rename_i h2
        rw [hai] at h2
        cases h2
      · split at h
        · rename_i hsame
          cases h
          rw [← hsame]
          exact ⟨fun hh => of_decide_eq_true hh, fun hp => decide_eq_true hp⟩
        · rename_i hsame
          split at h
          · rename_i hsp
            cases h
            exact ⟨fun _ => of_decide_eq_true hsp, fun _ => rfl⟩
          · rename_i hsp
            have hsp' : ¬ RealtimeVoice.SPEECH_THRESHOLD < lvl := fun hp =>
              hsp (decide_eq_true hp)
            split at h <;> cases h <;>
              exact ⟨fun hh => (Bool.false_ne_true hh).elim,
                     fun hp => absurd hp hsp'⟩
  · intro s t s' hreach h hne
    obtain ⟨h1, h2, h3⟩ := RealtimeVoice.inv_reachable s hreach
    simp only [RealtimeVoice.step] at h
    split at h
    · rename_i hdl
      split at h
      · split at h
        · cases h
          exact absurd rfl hne
        · cases h
          obtain ⟨ha, hb, hc, hd⟩ := h3 t hdl
          exact ⟨rfl, ha, hb, hd⟩
      · exact absurd h (by simp)
    · exact absurd h (by simp)
  · intro buffer now lastSound lastSpeech h
    simp only [NaturalVoice.checkSilenceFires, Bool.and_eq_true,
      decide_eq_true_eq] at h
    exact h.1.2

/-- Concrete run exercising the silence-processing part of C1: the user
speaks near time 100, falls silent at the tick at time 600, and the
timer fires at 2100 = 600 + 1500, processing the buffered transcript. -/
theorem c1_vad_silence_witness :
    (RealtimeVoice.runFrom RealtimeVoice.init
        [RealtimeVoice.VEvent.recogResult 0 "hello",
         RealtimeVoice.VEvent.vadTick 100 (-40),
         RealtimeVoice.VEvent.vadTick 600 (-60)]).bind
      (fun s => (RealtimeVoice.step s (RealtimeVoice.VEvent.silenceFire 2100)).map
        RealtimeVoice.VState.processed) = some ["hello"] := by decide

/-- C2 as stated is false on the code: `speakText` sets `isAISpeaking`
without clearing `isUserSpeaking`, so after a tick that classifies the
user as speaking, starting AI speech reaches a state with both flags
true (they stay both true until the next VAD tick). -/
theorem c2_counterexample_both_flags_true :
    (RealtimeVoice.runFrom RealtimeVoice.init
        [RealtimeVoice.VEvent.vadTick 0 (-40),
         RealtimeVoice.VEvent.aiStart 0]).map
      (fun s => (s.isAISpeaking, s.isUserSpeaking)) = some (true, true) := by
  decide

/-- C2 amended: every VAD tick taken while `isAISpeaking` holds forces
`isUserSpeaking` to false and returns without comparing the audio level
(the step is independent of the level), and `speakText` stops speech
recognition when AI speech begins; hence immediately after any VAD tick
taken during AI speech the two flags are not simultaneously true.  (The
unamended invariant fails only in the window between the start of AI
speech and the next tick, as the counterexample shows.) -/
theorem c2_ai_speaking_forces_silence_amended :
    (∀ s t lvl s', s.isAISpeaking = true →
      RealtimeVoice.step s (.vadTick t lvl) = some s' →
      s'.isUserSpeaking = false ∧ s'.isAISpeaking = true) ∧
    (∀ s t lvl lvl', s.isAISpeaking = true →
      RealtimeVoice.step s (.vadTick t lvl)
        = RealtimeVoice.step s (.vadTick t lvl')) ∧
    (∀ s t s', RealtimeVoice.step s (.aiStart t) = some s' →
      s'.isAISpeaking = true ∧ s'.recognitionActive = false) := by
  refine ⟨?_, ?_, ?_⟩
  · intro s t lvl s' hai h
    simp only [RealtimeVoice.step, hai] at h
    split at h
    · exact absurd h (by simp)
    · simp only [if_true] at h
      cases h
      exact ⟨rfl, rfl⟩
  · intro s t lvl lvl' hai
    simp [RealtimeVoice.step, hai]
  · intro s t s' h
    simp only [RealtimeVoice.step] at h
    split at h
    · exact absurd h (by simp)
    · cases h
      exact ⟨rfl, rfl⟩

namespace RecognitionRecovery

/-- The handler installed on `recognition.onerror` by
`RealtimeInterviewSystem.initialize`
(`src/src/utils/RealtimeInterview.ts`, lines 266-276): the recognizer is
restarted (after a 100 ms delay) only for the error types `no-speech`
and `audio-capture`, and only if the conversation is still active when
the delayed callback runs. -/
def realtimeOnerrorRestarts (err : String) (conversationActive : Bool) : Bool :=
  ((err == "no-speech") || (err == "audio-capture")) && conversationActive

/-- The handler installed on `recognition.onerror` by
`NaturalInterviewSystem.initialize` (lines 762-775): restart (after a
100 ms delay) only when the error is neither `no-speech` nor `aborted`,
the conversation is active and the AI is not speaking. -/
def naturalOnerrorRestarts (err : String)
    (conversationActive isAISpeaking : Bool) : Bool :=
  (!(err == "no-speech") && !(err == "aborted")) &&
  (conversationActive && !isAISpeaking)

end RecognitionRecovery

/-- C3 as stated is false on the code: a `network` speech-recognition
error while the conversation is active does not restart the recognizer
in `RealtimeInterviewSystem`, whose handler restarts only for
`no-speech` and `audio-capture` errors. -/
theorem c3_counterexample_network_error_no_restart :
    RecognitionRecovery.realtimeOnerrorRestarts "network" true = false := by
  decide

/-- C3 amended: a speech-recognition error event triggers an automatic
restart (scheduled with a 100 ms delay) only for specific error types:
in `RealtimeInterviewSystem` exactly when the error is `no-speech` or
`audio-capture` and the conversation is active; in
`NaturalInterviewSystem` exactly when the error is neither `no-speech`
nor `aborted`, the conversation is active and the AI is not speaking.
The handlers perform no other recovery action. -/
theorem c3_onerror_restart_conditions_amended :
    (∀ err ca, RecognitionRecovery.realtimeOnerrorRestarts err ca = true ↔
      ((err = "no-speech" ∨ err = "audio-capture") ∧ ca = true)) ∧
    (∀ err ca ai, RecognitionRecovery.naturalOnerrorRestarts err ca ai = true ↔
      (err ≠ "no-speech" ∧ err ≠ "aborted" ∧ ca = true ∧ ai = false)) ∧
    RealtimeVoice.RESTART_DELAY_MS = 100 := by
  refine ⟨?_, ?_, rfl⟩
  · intro err ca
    simp [RecognitionRecovery.realtimeOnerrorRestarts]
  · intro err ca ai
    simp [RecognitionRecovery.naturalOnerrorRestarts, and_assoc]

namespace AuthRoutes

/-- A row of the `users` table as the auth routes read and write it. -/
structure UserRow where
  id : String
  email : String
  password_hash : String
  deriving Repr, DecidableEq

/-- The request body of the auth routes. -/
structure Credentials where
  email : String
  password : String
  deriving Repr, DecidableEq

/-- `credentialsSchema.parse` (zod, auth route file lines 195-198): the
email is trimmed and must pass the zod email-format check (abstracted as
the parameter `emailOk`), the password must be 6 to 128 characters.
`none` models the `ZodError` branch, which both routes answer with 400. -/
def parseCredentials (emailOk : String → Bool) (c : Credentials) :
    Option Credentials :=
  if emailOk (jsTrim c.email) &&
      (decide (6 ≤ c.password.length) && decide (c.password.length ≤ 128)) then
    some { email := jsTrim c.email, password := c.password }
  else none

/-- Response of an auth route: HTTP status, optional error message,
optional JWT token, optional user object (id, email) and the value of
the httpOnly `accessToken` cookie when `setAuthCookie` ran. -/
structure AuthResponse where
  status : Nat
  error : Option String
  token : Option String
  user : Option (String × String)
  cookie : Option String
  deriving Repr, DecidableEq

/-- POST /api/auth/register (auth route file, lines 225-263).
`sign id email` abstracts `buildToken` (`jwt.sign` with the user id as
subject), `hash` abstracts `bcrypt.hash(password, 10)`, `newId` the
generated `randomUUID`, `db` the `users` table.  Returns the response
and the table after the request. -/
def registerRoute (emailOk : String → Bool) (hash : String → String)
    (sign : String → String → String) (newId : String)
    (db : List UserRow) (c : Credentials) : AuthResponse × List UserRow :=
  match parseCredentials emailOk c with
  | none => (⟨400, some "Validation error", none, none, none⟩, db)
  | some cred =>
    let e := jsToLowerCase cred.email
    if (db.filter (fun u => u.email == e)).length > 0 then
      (⟨409, some "Email already registered", none, none, none⟩, db)
    else
      let token := sign newId e
      (⟨201, none, some token, some (newId, e), some token⟩,
       db ++ [⟨newId, e, hash cred.password⟩])

/-- POST /api/auth/login (lines 265-301).  `verify pw h` abstracts
`bcrypt.compare`; the route reads the first row matching the lowercased
email and answers 401 `Invalid credentials` when there is none or the
hash does not match. -/
def loginRoute (emailOk : String → Bool) (verify : String → String → Bool)
    (sign : String → String → String)
    (db : List UserRow) (c : Credentials) : AuthResponse :=
  match parseCredentials emailOk c with
  | none => ⟨400, some "Validation error", none, none, none⟩
  | some cred =>
    match (db.filter (fun u => u.email == jsToLowerCase cred.email)).head? with
    | none => ⟨401, some "Invalid credentials", none, none, none⟩
    | some user =>
      if verify cred.password user.password_hash then
        let token := sign user.id user.email
        ⟨200, none, some token, some (user.id, user.email), some token⟩
      else ⟨401, some "Invalid credentials", none, none, none⟩

end AuthRoutes

/-- The filtered list is nonempty exactly when a member satisfies the
predicate (helper for the SQL `WHERE` clauses modelled as filters). -/
theorem filter_pos_iff_exists {α : Type} (p : α → Bool) (l : List α) :
    0 < (l.filter p).length ↔ ∃ a, a ∈ l ∧ p a = true := by
  constructor
  · intro h
    match hfe : l.filter p with
    | [] => rw [hfe] at h; simp at h
    | b :: bs =>
      have hb : b ∈ l.filter p := by rw [hfe]; exact List.mem_cons_self _ _
      exact ⟨b, (List.mem_filter.mp hb).1, (List.mem_filter.mp hb).2⟩
  · rintro ⟨a, ha, hp⟩
    have hm : a ∈ l.filter p := List.mem_filter.mpr ⟨ha, hp⟩
    exact List.length_pos.mpr (List.ne_nil_of_mem hm)

/-- C4: POST /api/auth/register answers 409 `Email already registered`
exactly when a user row with the submitted (trimmed, lowercased) email
already exists; otherwise it inserts a new user whose password field is
the bcrypt hash of the submitted password and answers 201 with a JWT
token, the user object and the httpOnly `accessToken` cookie.  A body
that fails validation answers 400 and leaves the table unchanged. -/
theorem c4_register_conflict_or_create :
    (∀ emailOk hash sign newId db c,
      AuthRoutes.parseCredentials emailOk c = none →
      (AuthRoutes.registerRoute emailOk hash sign newId db c).1.status = 400 ∧
      (AuthRoutes.registerRoute emailOk hash sign newId db c).2 = db) ∧
    (∀ emailOk hash sign newId db c cred,
      AuthRoutes.parseCredentials emailOk c = some cred →
      ((AuthRoutes.registerRoute emailOk hash sign newId db c).1 =
          ⟨409, some "Email already registered", none, none, none⟩ ↔
        ∃ u ∈ db, u.email = jsToLowerCase cred.email)) ∧
    (∀ emailOk hash sign newId db c cred,
      AuthRoutes.parseCredentials emailOk c = some cred →
      (∀ u ∈ db, u.email ≠ jsToLowerCase cred.email) →
      (AuthRoutes.registerRoute emailOk hash sign newId db c).1 =
        ⟨201, none, some (sign newId (jsToLowerCase cred.email)),
          some (newId, jsToLowerCase cred.email),
          some (sign newId (jsToLowerCase cred.email))⟩ ∧
      (AuthRoutes.registerRoute emailOk hash sign newId db c).2 =
        db ++ [⟨newId, jsToLowerCase cred.email, hash cred.password⟩]) := by
  refine ⟨?_, ?_, ?_⟩
  · intro emailOk hash sign newId db c hparse
    simp [AuthRoutes.registerRoute, hparse]
  · intro emailOk hash sign newId db c cred hparse
    by_cases hpos :
        0 < (db.filter
          (fun u => u.email == jsToLowerCase cred.email)).length
    · have hex := (filter_pos_iff_exists _ db).mp hpos
      simp only [beq_iff_eq] at hex
      simp [AuthRoutes.registerRoute, hparse, gt_iff_lt, hpos]
      exact hex
    · have hnex : ¬ ∃ u, u ∈ db ∧ u.email = jsToLowerCase cred.email := by
        intro ⟨u, hu, he⟩
        exact hpos ((filter_pos_iff_exists _ db).mpr
          ⟨u, hu, by simp [beq_iff_eq, he]⟩)
      simp [AuthRoutes.registerRoute, hparse, gt_iff_lt, hpos]
      exact fun u hu he => hnex ⟨u, hu, he⟩
  · intro emailOk hash sign newId db c cred hparse hnone
    have hnpos :
        ¬ 0 < (db.filter
          (fun u => u.email == jsToLowerCase cred.email)).length := by
      intro hpos
      obtain ⟨u, hu, he⟩ := (filter_pos_iff_exists _ db).mp hpos
      exact hnone u hu (by simpa [beq_iff_eq] using he)
    simp [AuthRoutes.registerRoute, hparse, gt_iff_lt, hnpos]

/-- C5: POST /api/auth/login answers 400 exactly when the body fails
validation (in particular whenever the password is shorter than 6
characters, and the email-format check passed for every parsed body);
401 `Invalid credentials` when no user row matches the lowercased email
or the stored bcrypt hash does not verify; and otherwise 200 with a JWT
token, the user object and the `accessToken` cookie. -/
theorem c5_login_statuses :
    (∀ emailOk verify sign db c,
      (AuthRoutes.loginRoute emailOk verify sign db c).status = 400 ↔
      AuthRoutes.parseCredentials emailOk c = none) ∧
    (∀ emailOk c, c.password.length < 6 →
      AuthRoutes.parseCredentials emailOk c = none) ∧
    (∀ emailOk c cred, AuthRoutes.parseCredentials emailOk c = some cred →
      emailOk (jsTrim c.email) = true) ∧
    (∀ emailOk verify sign db c cred,
      AuthRoutes.parseCredentials emailOk c = some cred →
      (db.filter (fun u => u.email == jsToLowerCase cred.email)).head? = none →
      AuthRoutes.loginRoute emailOk verify sign db c =
        ⟨401, some "Invalid credentials", none, none, none⟩) ∧
    (∀ emailOk verify sign db c cred u,
      AuthRoutes.parseCredentials emailOk c = some cred →
      (db.filter (fun w => w.email == jsToLowerCase cred.email)).head? = some u →
      verify cred.password u.password_hash = false →
      AuthRoutes.loginRoute emailOk verify sign db c =
        ⟨401, some "Invalid credentials", none, none, none⟩) ∧
    (∀ emailOk verify sign db c cred u,
      AuthRoutes.parseCredentials emailOk c = some cred →
      (db.filter (fun w => w.email == jsToLowerCase cred.email)).head? = some u →
      verify cred.password u.password_hash = true →
      AuthRoutes.loginRoute emailOk verify sign db c =
        ⟨200, none, some (sign u.id u.email), some (u.id, u.email),
          some (sign u.id u.email)⟩) := by
  refine ⟨?_, ?_, ?_, ?_, ?_, ?_⟩
  · intro emailOk verify sign db c
    constructor
    · intro h
      match hp : AuthRoutes.parseCredentials emailOk c with
      | none => rfl
      | some cred =>
        exfalso
        simp only [AuthRoutes.loginRoute, hp] at h
        match hh : (db.filter
            (fun u => u.email == jsToLowerCase cred.email)).head? with
        | none => rw [hh] at h; simp at h
        | some u =>
          rw [hh] at h
          by_cases hv : verify cred.password u.password_hash = true <;>
            simp [hv] at h
    · intro h
      simp [AuthRoutes.loginRoute, h]
  · intro emailOk c hlen
    have : ¬ 6 ≤ c.password.length := by omega
    simp [AuthRoutes.parseCredentials, this]
  · intro emailOk c cred hp
    by_cases h : emailOk (jsTrim c.email) = true
    · exact h
    · exfalso
      simp [AuthRoutes.parseCredentials,
        Bool.eq_false_iff.mpr h] at hp
  · intro emailOk verify sign db c cred hp hh
    simp [AuthRoutes.loginRoute, hp, hh]
  · intro emailOk verify sign db c cred u hp hh hv
    simp [AuthRoutes.loginRoute, hp, hh, hv]
  · intro emailOk verify sign db c cred u hp hh hv
    simp [AuthRoutes.loginRoute, hp, hh, hv]

namespace AuthMiddleware

/-- The parts of an incoming request that `requireAuth` reads: the
`accessToken` cookie and the `Authorization` header. -/
structure AuthReq where
  cookieToken : Option String
  authHeader : Option String
  deriving Repr, DecidableEq

/-- Outcome of the middleware: 401 `Authentication required`
(`missing`), 401 `Invalid or expired token` (`invalid`), or the request
proceeds to the handler with the decoded user (`ok`). -/
inductive AuthOutcome where
  | missing
  | invalid
  | ok (id email : String)
  deriving Repr, DecidableEq

/-- Token selection of `requireAuth` (middleware/auth.ts lines 21-34):
the `accessToken` cookie first, else the `Authorization` header when it
starts with `Bearer `.  JS truthiness of `if (!token)` makes an empty
cookie fall through to the header and an empty selected token count as
absent. -/
def selectToken (req : AuthReq) : Option String :=
  let fromCookie : Option String :=
    match req.cookieToken with
    | some ctk => if ctk = "" then none else some ctk
    | none => none
  match fromCookie with
  | some ctk => some ctk
  | none =>
    match req.authHeader with
    | some h =>
      if jsStartsWith h "Bearer " then
        if jsDrop h 7 = "" then none else some (jsDrop h 7)
      else none
    | none => none

/-- `requireAuth` (middleware/auth.ts lines 16-51).  `verify` abstracts
`jwt.verify` against the server secret: `none` models the throw,
`some (sub, email)` the decoded payload. -/
def requireAuth (verify : String → Option (String × String))
    (req : AuthReq) : AuthOutcome :=
  match selectToken req with
  | none => .missing
  | some tk =>
    match verify tk with
    | none => .invalid
    | some p => .ok p.1 p.2

end AuthMiddleware

/-- C6: a request carrying neither an `accessToken` cookie nor an
`Authorization` header starting with `Bearer ` is rejected with 401
`Authentication required` before the handler runs; a selected token
failing JWT verification is rejected with 401 `Invalid or expired
token`; and when both a (nonempty) cookie and a header are present, the
cookie token is the one verified - the header does not influence the
outcome. -/
theorem c6_require_auth_token_selection :
    (∀ v req, req.cookieToken = none →
      (∀ h, req.authHeader = some h → jsStartsWith h "Bearer " = false) →
      AuthMiddleware.requireAuth v req = .missing) ∧
    (∀ v req tk, AuthMiddleware.selectToken req = some tk → v tk = none →
      AuthMiddleware.requireAuth v req = .invalid) ∧
    (∀ c h, c ≠ "" →
      AuthMiddleware.selectToken ⟨some c, h⟩ = some c) ∧
    (∀ v c h, c ≠ "" →
      AuthMiddleware.requireAuth v ⟨some c, some h⟩ =
        AuthMiddleware.requireAuth v ⟨some c, none⟩) := by
  refine ⟨?_, ?_, ?_, ?_⟩
  · intro v req hc hh
    obtain ⟨ct, ah⟩ := req
    have hct : ct = none := hc
    subst hct
    cases ah with
    | none => rfl
    | some h =>
      simp [AuthMiddleware.requireAuth, AuthMiddleware.selectToken,
        hh h rfl]
  · intro v req tk hsel hv
    simp [AuthMiddleware.requireAuth, hsel, hv]
  · intro c h hc
    simp [AuthMiddleware.selectToken, hc]
  · intro v c h hc
    simp [AuthMiddleware.requireAuth, AuthMiddleware.selectToken, hc]

namespace Uploads

/-- The DOCX mimetype accepted for resume uploads
(`src/server/src/routes/resumes.ts`, line 33). -/
def docxMime : String :=
  "application/vnd.openxmlformats-officedocument.wordprocessingml.document"

/-- The `limits.fileSize` of the resume `multer` instance (line 31). -/
def RESUME_MAX_BYTES : Nat := 5 * 1024 * 1024

/-- Whether the resume upload middleware accepts a file: the
`fileFilter` admits only `docxMime` and multer rejects any file whose
size exceeds `limits.fileSize` (lines 29-39). -/
def resumeUploadAccepts (mimetype : String) (size : Nat) : Bool :=
  decide (mimetype ∈ [docxMime]) && decide (size ≤ RESUME_MAX_BYTES)

/-- First branch of the POST /api/resumes handler (lines 49-53): with no
uploaded file the route answers 400 `Resume file is required`; the
remaining work runs only with a file attached. -/
inductive ResumePostOutcome where
  | rejected (status : Nat) (error : String)
  | proceeds
  deriving Repr, DecidableEq

/-- Models the `if (!req.file)` guard of POST /api/resumes. -/
def resumePostCheck (hasFile : Bool) : ResumePostOutcome :=
  if hasFile then .proceeds else .rejected 400 "Resume file is required"

/-- The audio mimetypes accepted for interview answer uploads
(`src/server/src/routes/interviews.ts`, lines 268-278). -/
def allowedAudioTypes : List String :=
  ["audio/webm", "audio/webm;codecs=opus", "audio/mpeg", "audio/mp3",
   "audio/wav", "audio/x-wav", "audio/wave", "audio/ogg", "audio/mp4"]

/-- The `limits.fileSize` of the `audioUpload` multer instance
(line 283). -/
def AUDIO_MAX_BYTES : Nat := 25 * 1024 * 1024

/-- Whether the `audioUpload` middleware of POST
/api/interviews/submit-answer accepts a file (lines 280-291). -/
def audioUploadAccepts (mimetype : String) (size : Nat) : Bool :=
  decide (mimetype ∈ allowedAudioTypes) && decide (size ≤ AUDIO_MAX_BYTES)

end Uploads

/-- C7: resume uploads accept exactly DOCX files of at most
5 * 1024 * 1024 bytes (anything larger or of another mimetype is
rejected), POST /api/resumes answers 400 when no file is attached, and
interview audio uploads accept exactly the nine listed audio mimetypes
up to 25 * 1024 * 1024 bytes. -/
theorem c7_upload_limits :
    (∀ m s, Uploads.resumeUploadAccepts m s = true ↔
      (m = Uploads.docxMime ∧ s ≤ Uploads.RESUME_MAX_BYTES)) ∧
    Uploads.RESUME_MAX_BYTES = 5 * 1024 * 1024 ∧
    Uploads.resumePostCheck false =
      .rejected 400 "Resume file is required" ∧
    (∀ m s, Uploads.audioUploadAccepts m s = true ↔
      (m ∈ Uploads.allowedAudioTypes ∧ s ≤ Uploads.AUDIO_MAX_BYTES)) ∧
    Uploads.AUDIO_MAX_BYTES = 25 * 1024 * 1024 ∧
    Uploads.allowedAudioTypes.length = 9 := by
  refine ⟨?_, rfl, rfl, ?_, rfl, rfl⟩
  · intro m s
    simp [Uploads.resumeUploadAccepts]
  · intro m s
    simp [Uploads.audioUploadAccepts]

namespace SubmitAnswer

/-- A stored interview question as `getSessionQuestions` returns it in
the session's question order; the submit-answer arithmetic consults only
the id. -/
structure SessionQuestion where
  id : String
  question_number : Nat
  question_text : String
  deriving Repr, DecidableEq

/-- JS `Array.prototype.findIndex` over the question ids: index of the
first question with the given id; `none` models -1. -/
def findQuestionIndex (qs : List SessionQuestion) (qid : String) :
    Option Nat :=
  match qs with
  | [] => none
  | q :: rest =>
    if q.id = qid then some 0 else (findQuestionIndex rest qid).map (· + 1)

/-- The response of POST /api/interviews/submit-answer
(`src/server/src/routes/interviews.ts`, lines 380-461) once the
session-ownership check passed: 400 when the answered question id is not
among the session questions, otherwise the next question (null when the
answered one is last), the completion flag and the progress counters.
The progress fields are meaningless in the 400 response (the JSON body
has none) and are set to 0. -/
structure SubmitAnswerResponse where
  status : Nat
  error : Option String
  nextQuestion : Option SessionQuestion
  isComplete : Bool
  progressCurrent : Nat
  progressTotal : Nat
  deriving Repr, DecidableEq

/-- Lines 423-457 of the handler: find the answered question among the
session questions, answer 400 when absent, else report next question,
completion and progress. -/
def submitAnswerCore (qs : List SessionQuestion) (qid : String) :
    SubmitAnswerResponse :=
  match findQuestionIndex qs qid with
  | none =>
    ⟨400, some "Question does not belong to this interview",
      none, false, 0, 0⟩
  | some i =>
    let nextQuestion := qs.get? (i + 1)
    ⟨200, none, nextQuestion, nextQuestion.isNone, i + 1, qs.length⟩

/-- With pairwise distinct ids, `findQuestionIndex` returns exactly the
index of the question carrying the id. -/
theorem findQuestionIndex_eq_of_nodup (qs : List SessionQuestion)
    (qid : String) (i : Nat) (h : i < qs.length)
    (hnd : (qs.map (fun q => q.id)).Nodup)
    (hid : (qs.get ⟨i, h⟩).id = qid) :
    findQuestionIndex qs qid = some i := by
  induction qs generalizing i with
  | nil => cases h
  | cons q rest ih =>
    rw [List.map_cons, List.nodup_cons] at hnd
    cases i with
    | zero =>
      simp only [List.get] at hid
      simp [findQuestionIndex, hid]
    | succ j =>
      have hj : j < rest.length := Nat.lt_of_succ_lt_succ h
      have hid' : (rest.get ⟨j, hj⟩).id = qid := hid
      have hne : ¬ q.id = qid := by
        intro he
        apply hnd.1
        rw [he, ← hid']
        exact List.mem_map_of_mem (fun q => q.id) (rest.get_mem j hj)
      simp [findQuestionIndex, hne, ih j hj hnd.2 hid']

/-- When no question carries the id, `findQuestionIndex` returns
`none`. -/
theorem findQuestionIndex_eq_none (qs : List SessionQuestion)
    (qid : String) (habs : ∀ q ∈ qs, q.id ≠ qid) :
    findQuestionIndex qs qid = none := by
  induction qs with
  | nil => rfl
  | cons q rest ih =>
    simp [findQuestionIndex, habs q (List.mem_cons_self q rest),
      ih (fun w hw => habs w (List.mem_cons_of_mem q hw))]

end SubmitAnswer

/-- C8: for a successful submit-answer on a session whose questions have
pairwise distinct ids, with `i` the zero-based index of the answered
question, the response reports progress `i + 1` of the number of
session questions, the question at index `i + 1` as `nextQuestion`
(null exactly when the answered question is last), and
`isComplete = true` exactly when the answered question is the last;
a question id not belonging to the session yields 400. -/
theorem c8_submit_answer_progress :
    (∀ qs qid i (h : i < qs.length),
      (qs.map (fun q => q.id)).Nodup →
      (qs.get ⟨i, h⟩).id = qid →
      (SubmitAnswer.submitAnswerCore qs qid).status = 200 ∧
      (SubmitAnswer.submitAnswerCore qs qid).progressCurrent = i + 1 ∧
      (SubmitAnswer.submitAnswerCore qs qid).progressTotal = qs.length ∧
      (SubmitAnswer.submitAnswerCore qs qid).nextQuestion = qs.get? (i + 1) ∧
      ((SubmitAnswer.submitAnswerCore qs qid).isComplete = true ↔
        i + 1 = qs.length)) ∧
    (∀ qs qid, (∀ q ∈ qs, q.id ≠ qid) →
      SubmitAnswer.submitAnswerCore qs qid =
        ⟨400, some "Question does not belong to this interview",
          none, false, 0, 0⟩) := by
  constructor
  · intro qs qid i h hnd hid
    have hfi := SubmitAnswer.findQuestionIndex_eq_of_nodup qs qid i h hnd hid
    refine ⟨?_, ?_, ?_, ?_, ?_⟩ <;>
      simp only [SubmitAnswer.submitAnswerCore, hfi]
    rw [Option.isNone_iff_eq_none, List.get?_eq_none]
    omega
  · intro qs qid habs
    simp [SubmitAnswer.submitAnswerCore,
      SubmitAnswer.findQuestionIndex_eq_none qs qid habs]

/-- Concrete instantiation of C8: answering the first of two questions
reports progress 1 of 2, the second question as next, and not
complete. -/
theorem c8_submit_answer_witness :
    SubmitAnswer.submitAnswerCore
        [⟨"qa", 1, "first question"⟩, ⟨"qb", 2, "second question"⟩]
        "qa" =
      ⟨200, none, some ⟨"qb", 2, "second question"⟩, false, 1, 2⟩ := by
  decide

namespace QuestionPool

/-- Question category of `RealtimeInterviewSystem`. -/
inductive Category where
  | technical
  | behavioral
  | situational
  | experience
  | general
  deriving Repr, DecidableEq, BEq

/-- Question difficulty of `RealtimeInterviewSystem`. -/
inductive Difficulty where
  | easy
  | medium
  | hard
  deriving Repr, DecidableEq, BEq

/-- An `InterviewQuestion` of `RealtimeInterviewSystem`
(`src/src/utils/RealtimeInterview.ts`, lines 6-12). -/
structure PoolQuestion where
  id : String
  text : String
  category : Category
  difficulty : Difficulty
  followUpTopics : List String
  deriving Repr, DecidableEq

/-- The pool built by `initializeQuestionPool` (lines 66-220). -/
def questionPool : List PoolQuestion :=
  [⟨"q1", "Tell me about yourself and your background.",
    .general, .easy, ["education", "experience", "skills"]⟩,
   ⟨"q2", "What interests you most about this position?",
    .general, .easy, ["motivation", "career goals"]⟩,
   ⟨"q3", "Where do you see yourself in five years?",
    .general, .easy, ["ambitions", "growth"]⟩,
   ⟨"q4", "What are your strongest technical skills?",
    .technical, .easy, ["projects", "implementations"]⟩,
   ⟨"q5", "Describe a challenging technical problem you solved recently.",
    .technical, .medium, ["problem-solving", "methodology"]⟩,
   ⟨"q6", "How do you stay updated with the latest technologies in your field?",
    .technical, .easy, ["learning", "professional development"]⟩,
   ⟨"q7", "Walk me through your approach to debugging a complex issue.",
    .technical, .medium, ["debugging", "tools", "methodology"]⟩,
   ⟨"q8", "Tell me about a time when you had to work with a difficult team member.",
    .behavioral, .medium, ["teamwork", "conflict resolution"]⟩,
   ⟨"q9", "Describe a situation where you had to meet a tight deadline.",
    .behavioral, .medium, ["time management", "pressure handling"]⟩,
   ⟨"q10", "Give me an example of when you showed leadership.",
    .behavioral, .medium, ["leadership", "initiative"]⟩,
   ⟨"q11", "Tell me about a time you failed and what you learned from it.",
    .behavioral, .medium, ["resilience", "learning", "growth"]⟩,
   ⟨"q12", "How would you handle a situation where you disagree with your manager?",
    .situational, .medium, ["communication", "professionalism"]⟩,
   ⟨"q13", "If you were given conflicting priorities, how would you decide what to work on?",
    .situational, .medium, ["prioritization", "decision-making"]⟩,
   ⟨"q14", "What would you do if you noticed a team member was struggling with their work?",
    .situational, .easy, ["empathy", "collaboration"]⟩,
   ⟨"q15", "What project are you most proud of and why?",
    .experience, .easy, ["achievements", "impact"]⟩,
   ⟨"q16", "Tell me about a time when you had to learn something new quickly.",
    .experience, .medium, ["learning agility", "adaptation"]⟩,
   ⟨"q17", "Describe your most significant contribution to a team project.",
    .experience, .medium, ["collaboration", "value add"]⟩,
   ⟨"q18", "How do you balance technical excellence with business requirements?",
    .technical, .hard, ["trade-offs", "business acumen"]⟩,
   ⟨"q19", "Tell me about a time when you had to make a decision without complete information.",
    .behavioral, .hard, ["decision-making", "risk assessment"]⟩,
   ⟨"q20", "How do you handle situations where you need to give critical feedback to peers?",
    .situational, .hard, ["communication", "leadership"]⟩]


/-- `availableQuestions` of `selectNextQuestion` (line 394): pool
questions whose id is not in `askedQuestions` (a JS `Set`, modelled as a
list of ids with decidable membership). -/
def availableOf (askedQuestions : List String) : List PoolQuestion :=
  questionPool.filter (fun q => decide (q.id ∉ askedQuestions))

/-- `targetDifficulty` of `selectNextQuestion` (lines 401-410), driven
by the number of asked questions. -/
def targetDifficultyOf (askedCount : Nat) : Difficulty :=
  if askedCount < 3 then .easy
  else if askedCount < 6 then .medium
  else .hard

/-- First narrowing stage of `selectNextQuestion` (lines 412-416):
filter the available questions by the target difficulty, falling back to
all available ones when none matches. -/
def difficultyCandidatesOf (askedQuestions : List String) :
    List PoolQuestion :=
  let availableQuestions := availableOf askedQuestions
  let byDifficulty :=
    availableQuestions.filter
      (fun q => q.difficulty == targetDifficultyOf askedQuestions.length)
  if byDifficulty.isEmpty then availableQuestions else byDifficulty

/-- Second narrowing stage (lines 418-424): prefer a category different
from the current question, again falling back when that filter empties
the list. -/
def candidatesOf (askedQuestions : List String)
    (currentQuestion : Option PoolQuestion) : List PoolQuestion :=
  match currentQuestion with
  | some cq =>
    let differentCategory :=
      (difficultyCandidatesOf askedQuestions).filter
        (fun q => !(q.category == cq.category))
    if differentCategory.isEmpty then difficultyCandidatesOf askedQuestions
    else differentCategory
  | none => difficultyCandidatesOf askedQuestions

/-- `selectNextQuestion` (lines 392-429).  `r` abstracts
`Math.floor(Math.random() * candidates.length)`: the code draws an
index below the candidate count, the model reduces an arbitrary natural
modulo that count.  Returns `none` (the JS `null`) when every pool
question has been asked. -/
def selectNextQuestion (askedQuestions : List String)
    (currentQuestion : Option PoolQuestion) (r : Nat) :
    Option PoolQuestion :=
  if (availableOf askedQuestions).isEmpty then none
  else
    let finalCandidates := candidatesOf askedQuestions currentQuestion
    finalCandidates.get? (r % finalCandidates.length)

/-- Conversation state of `RealtimeInterviewSystem` as far as question
selection is concerned.  `askedList` is a ghost transcript of the
questions asked, in order; `closingSpoken` records that the closing
message was spoken. -/
structure InterviewState where
  askedQuestions : List String
  currentQuestion : Option PoolQuestion
  conversationActive : Bool
  askedList : List PoolQuestion
  closingSpoken : Bool
  deriving Repr, DecidableEq

/-- State at `start()`: no question asked yet. -/
def initState : InterviewState :=
  ⟨[], none, true, [], false⟩

/-- `askNextQuestion` (lines 478-503): select a question; with none
available, speak the closing message and set
`conversationActive := false`; otherwise make it current, add its id to
`askedQuestions` (a JS `Set`: adding a present id is a no-op) before the
question is spoken, and emit it (ghost `askedList`). -/
def askNextQuestion (s : InterviewState) (r : Nat) : InterviewState :=
  match selectNextQuestion s.askedQuestions s.currentQuestion r with
  | none =>
    { s with closingSpoken := true, conversationActive := false }
  | some q =>
    { s with currentQuestion := some q,
             askedQuestions :=
               if q.id ∈ s.askedQuestions then s.askedQuestions
               else s.askedQuestions ++ [q.id],
             askedList := s.askedList ++ [q] }

/-- A whole conversation: one `askNextQuestion` per user turn, each with
its own random draw. -/
def runInterview (rs : List Nat) : InterviewState :=
  rs.foldl askNextQuestion initState

/-- Every difficulty-stage candidate is an available question. -/
theorem difficultyCandidatesOf_subset (asked : List String)
    (w : PoolQuestion) (hw : w ∈ difficultyCandidatesOf asked) :
    w ∈ availableOf asked := by
  simp only [difficultyCandidatesOf] at hw
  split at hw
  · exact hw
  · exact (List.mem_filter.mp hw).1

/-- Membership in an if-then-else of lists comes from one branch. -/
theorem mem_ite_cases {α : Type} {l1 l2 : List α} {c : Prop}
    [Decidable c] {w : α} (hw : w ∈ (if c then l1 else l2)) :
    w ∈ l1 ∨ w ∈ l2 := by
  split at hw
  · exact Or.inl hw
  · exact Or.inr hw

/-- Every candidate is an available question. -/
theorem candidatesOf_subset_available (asked : List String)
    (cur : Option PoolQuestion) (w : PoolQuestion)
    (hw : w ∈ candidatesOf asked cur) : w ∈ availableOf asked := by
  simp only [candidatesOf] at hw
  cases cur with
  | none => exact difficultyCandidatesOf_subset asked w hw
  | some cq =>
    rcases mem_ite_cases hw with h | h
    · exact difficultyCandidatesOf_subset asked w h
    · exact difficultyCandidatesOf_subset asked w (List.mem_filter.mp h).1

/-- Soundness of selection: a selected question is a pool question whose
id has not been asked yet. -/
theorem selectNextQuestion_sound (asked : List String)
    (cur : Option PoolQuestion) (r : Nat) (q : PoolQuestion)
    (h : selectNextQuestion asked cur r = some q) :
    q ∈ questionPool ∧ q.id ∉ asked := by
  simp only [selectNextQuestion] at h
  split at h
  · cases h
  · have hq : q ∈ candidatesOf asked cur := List.get?_mem h
    have hav := candidatesOf_subset_available asked cur q hq
    have := List.mem_filter.mp hav
    exact ⟨this.1, of_decide_eq_true this.2⟩

/-- When every pool question has been asked, nothing is selected. -/
theorem selectNextQuestion_none_of_all_asked (asked : List String)
    (cur : Option PoolQuestion) (r : Nat)
    (hall : ∀ q ∈ questionPool, q.id ∈ asked) :
    selectNextQuestion asked cur r = none := by
  have hempty : (availableOf asked).isEmpty = true := by
    have hnil : availableOf asked = [] := by
      rw [availableOf, List.filter_eq_nil_iff]
      intro q hq
      simp [hall q hq]
    rw [hnil]
    rfl
  simp [selectNextQuestion, hempty]

/-- The invariant of a conversation: asked ids are pairwise distinct and
every asked question has its id registered in `askedQuestions`. -/
def AskedInv (s : InterviewState) : Prop :=
  (s.askedList.map (fun q => q.id)).Nodup ∧
  ∀ q ∈ s.askedList, q.id ∈ s.askedQuestions

theorem askedInv_init : AskedInv initState := by
  constructor <;> simp [initState]

theorem askedInv_step (s : InterviewState) (r : Nat)
    (hs : AskedInv s) : AskedInv (askNextQuestion s r) := by
  obtain ⟨hnd, hsub⟩ := hs
  cases hsel : selectNextQuestion s.askedQuestions s.currentQuestion r with
  | none =>
    simp only [askNextQuestion, hsel]
    exact ⟨hnd, hsub⟩
  | some q =>
    obtain ⟨hpool, hnotasked⟩ :=
      selectNextQuestion_sound _ _ _ _ hsel
    have hq_new : q.id ∉ s.askedList.map (fun w => w.id) := by
      intro hmem
      obtain ⟨w, hw, he⟩ := List.mem_map.mp hmem
      exact hnotasked (he ▸ hsub w hw)
    simp only [askNextQuestion, hsel, if_neg hnotasked]
    refine And.intro ?_ ?_
    · rw [List.map_append]
      simp only [List.map_cons, List.map_nil]
      exact List.Nodup.append hnd (List.nodup_singleton _)
        (by
          intro a ha hb
          rw [List.mem_singleton] at hb
          exact hq_new (hb ▸ ha))
    · intro w hw
      rw [List.mem_append] at hw
      cases hw with
      | inl hw =>
        exact List.mem_append_left _ (hsub w hw)
      | inr hw =>
        rw [List.mem_singleton] at hw
        subst hw
        exact List.mem_append_right _ (List.mem_singleton_self _)

theorem askedInv_run (rs : List Nat) : AskedInv (runInterview rs) := by
  rw [runInterview]
  have : ∀ s, AskedInv s → AskedInv (rs.foldl askNextQuestion s) := by
    induction rs with
    | nil => intro s hs; exact hs
    | cons r rs ih =>
      intro s hs
      exact ih _ (askedInv_step s r hs)
  exact this initState askedInv_init

end QuestionPool

/-- C10: `RealtimeInterviewSystem` never asks the same question twice
within one interview: the pool has 20 questions; `selectNextQuestion`
considers only pool questions whose id is not among the asked ones;
`askNextQuestion` registers the asked id in `askedQuestions` before the
question is spoken and emits the question; once every pool question has
been asked it speaks the closing message and sets
`conversationActive := false` instead of asking again; and over any
conversation the asked questions carry pairwise distinct ids. -/
theorem c10_never_repeats_questions :
    QuestionPool.questionPool.length = 20 ∧
    (∀ asked cur r q,
      QuestionPool.selectNextQuestion asked cur r = some q →
      q ∈ QuestionPool.questionPool ∧ q.id ∉ asked) ∧
    (∀ s r q,
      QuestionPool.selectNextQuestion s.askedQuestions s.currentQuestion r
        = some q →
      (QuestionPool.askNextQuestion s r).askedQuestions =
        s.askedQuestions ++ [q.id] ∧
      (QuestionPool.askNextQuestion s r).currentQuestion = some q ∧
      (QuestionPool.askNextQuestion s r).askedList = s.askedList ++ [q]) ∧
    (∀ s r, (∀ q ∈ QuestionPool.questionPool, q.id ∈ s.askedQuestions) →
      QuestionPool.askNextQuestion s r =
        { s with closingSpoken := true, conversationActive := false }) ∧
    (∀ rs, ((QuestionPool.runInterview rs).askedList.map
      (fun q => q.id)).Nodup) := by
  refine ⟨rfl, ?_, ?_, ?_, ?_⟩
  · exact fun asked cur r q h =>
      QuestionPool.selectNextQuestion_sound asked cur r q h
  · intro s r q hsel
    have hna := (QuestionPool.selectNextQuestion_sound _ _ _ _ hsel).2
    refine ⟨?_, ?_, ?_⟩ <;>
      simp [QuestionPool.askNextQuestion, hsel, if_neg hna]
  · intro s r hall
    simp [QuestionPool.askNextQuestion,
      QuestionPool.selectNextQuestion_none_of_all_asked
        s.askedQuestions s.currentQuestion r hall]
  · intro rs
    exact (QuestionPool.askedInv_run rs).1

/-- Concrete conversation for C10: two turns with random draw 0 ask q1
(general, easy) and then q4 (the first easy question of a different
category); the asked ids are distinct. -/
theorem c10_two_turns_witness :
    ((QuestionPool.runInterview [0, 0]).askedList.map (fun q => q.id))
      = ["q1", "q4"] := by decide

namespace Scoping

/-- A row of `interview_sessions` as the read endpoints use it;
`payload` stands for the remaining selected columns. -/
structure SessionRow where
  id : String
  user_id : String
  job_id : Option String
  created_at : Nat
  payload : String
  deriving Repr, DecidableEq

/-- A row of `resumes`. -/
structure ResumeRow where
  id : String
  user_id : String
  created_at : Nat
  payload : String
  deriving Repr, DecidableEq

/-- A row of `interview_questions`. -/
structure QuestionRow where
  id : String
  interview_session_id : String
  question_number : Nat
  question_text : String
  deriving Repr, DecidableEq

/-- A row of `interview_answers`. -/
structure AnswerRow where
  id : String
  interview_session_id : String
  question_id : String
  answer_text : String
  deriving Repr, DecidableEq

/-- A row of `jobs` (joined for the job title). -/
structure JobRow where
  id : String
  company_id : Option String
  title : String
  deriving Repr, DecidableEq

/-- A row of `companies` (joined for the company name). -/
structure CompanyRow where
  id : String
  name : String
  deriving Repr, DecidableEq

/-- The tables the read endpoints touch. -/
structure Db where
  sessions : List SessionRow
  resumes : List ResumeRow
  questions : List QuestionRow
  answers : List AnswerRow
  jobs : List JobRow
  companies : List CompanyRow
  deriving Repr, DecidableEq

/-- Stable insertion by a Bool comparison; used to model SQL
`ORDER BY`. -/
def insertByKey {α : Type} (le : α → α → Bool) (x : α) :
    List α → List α
  | [] => [x]
  | y :: ys => if le x y then x :: y :: ys else y :: insertByKey le x ys

/-- Insertion sort by a Bool comparison; models SQL `ORDER BY`. -/
def sortByKey {α : Type} (le : α → α → Bool) : List α → List α
  | [] => []
  | x :: xs => insertByKey le x (sortByKey le xs)

theorem mem_insertByKey {α : Type} (le : α → α → Bool) (x a : α)
    (l : List α) : a ∈ insertByKey le x l ↔ a = x ∨ a ∈ l := by
  induction l with
  | nil => simp [insertByKey]
  | cons y ys ih =>
    simp only [insertByKey]
    split
    · simp [List.mem_cons]
    · simp only [List.mem_cons, ih]
      tauto

theorem mem_sortByKey {α : Type} (le : α → α → Bool) (a : α)
    (l : List α) : a ∈ sortByKey le l ↔ a ∈ l := by
  induction l with
  | nil => simp [sortByKey]
  | cons x xs ih =>
    simp only [sortByKey, mem_insertByKey, ih, List.mem_cons]

/-- GET /api/interviews (`src/server/src/routes/interviews.ts`, lines
51-66): the rows whose `user_id` is the requester, ordered by
`created_at` descending, limit 50. -/
def listInterviews (db : Db) (uid : String) : List SessionRow :=
  (sortByKey (fun a b => decide (b.created_at ≤ a.created_at))
    (db.sessions.filter (fun s => s.user_id == uid))).take 50

/-- The `LEFT JOIN jobs` column of GET /api/interviews/:id. -/
def jobTitleOf (db : Db) (s : SessionRow) : Option String :=
  (s.job_id.bind (fun j =>
    (db.jobs.filter (fun w => w.id == j)).head?)).map (fun j => j.title)

/-- The `LEFT JOIN companies` column of GET /api/interviews/:id. -/
def companyNameOf (db : Db) (s : SessionRow) : Option String :=
  ((s.job_id.bind (fun j =>
      (db.jobs.filter (fun w => w.id == j)).head?)).bind (fun j =>
    j.company_id.bind (fun cid =>
      (db.companies.filter (fun c => c.id == cid)).head?))).map
    (fun c => c.name)

/-- Outcome of handing the GET /api/interviews/:id SQL to the driver:
either the query ran and produced rows, or the driver threw (for
example a parse error) and the handler's catch forwards to the Express
error middleware. -/
inductive QueryOutcome where
  | ok
  | sqlError
  deriving Repr, DecidableEq

/-- Response of GET /api/interviews/:id: HTTP status, error message,
and the joined row when one is returned. -/
structure InterviewByIdResponse where
  status : Nat
  error : Option String
  session : Option (SessionRow × Option String × Option String)
  deriving Repr, DecidableEq

/-- The scoped, joined lookup that the GET /api/interviews/:id query
text describes (`WHERE is.user_id = $1 AND is.id = $2 LIMIT 1` with the
two LEFT JOINs): what the route would read if its query parsed. -/
def interviewByIdRows (db : Db) (uid rid : String) :
    Option (SessionRow × Option String × Option String) :=
  match (db.sessions.filter
      (fun s => s.user_id == uid && s.id == rid)).head? with
  | none => none
  | some s => some (s, jobTitleOf db s, companyNameOf db s)

/-- GET /api/interviews/:id (lines 94-117).  On a driver error the
catch forwards to the error middleware (`src/server/src/index.ts`),
which answers 500 `Internal server error`; with rows the handler
answers 404 `Interview session not found` on zero rows, else 200 with
the row.  The route's query text aliases `interview_sessions` as `is`
(lines 98-104) - a reserved PostgreSQL word that cannot be a table
alias - so against the real PostgreSQL backend the driver throws a
syntax error on every request: only the `.sqlError` branch is
reachable, and the scoped 404/200 logic below the query is dead code. -/
def getInterviewRoute (db : Db) (uid rid : String) :
    QueryOutcome → InterviewByIdResponse
  | .sqlError => ⟨500, some "Internal server error", none⟩
  | .ok =>
    match interviewByIdRows db uid rid with
    | none => ⟨404, some "Interview session not found", none⟩
    | some row => ⟨200, none, some row⟩

/-- Modelled from the spec: `getSessionQuestions` of
`ai-interview-service` is not among the staged sources (only its
callers and the row types are); the spec describes the entities as
plain relational rows, so the service read is modelled as the question
rows of the session in question-number order. -/
def getSessionQuestionsModel (db : Db) (sid : String) : List QuestionRow :=
  sortByKey (fun a b => decide (a.question_number ≤ b.question_number))
    (db.questions.filter (fun q => q.interview_session_id == sid))

/-- Modelled from the spec: `getSessionAnswers` of
`ai-interview-service`, likewise: the answer rows of the session. -/
def getSessionAnswersModel (db : Db) (sid : String) : List AnswerRow :=
  db.answers.filter (fun a => a.interview_session_id == sid)

/-- GET /api/interviews/:id/questions (lines 510-528): ownership check
on the session, then the session's questions; `none` models the 404. -/
def getInterviewQuestions (db : Db) (uid sid : String) :
    Option (List QuestionRow) :=
  if 0 < (db.sessions.filter
      (fun s => s.id == sid && s.user_id == uid)).length then
    some (getSessionQuestionsModel db sid)
  else none

/-- GET /api/interviews/:id/answers (lines 534-552). -/
def getInterviewAnswers (db : Db) (uid sid : String) :
    Option (List AnswerRow) :=
  if 0 < (db.sessions.filter
      (fun s => s.id == sid && s.user_id == uid)).length then
    some (getSessionAnswersModel db sid)
  else none

/-- GET /api/resumes (`src/server/src/routes/resumes.ts`, lines
115-129): the requester's resume rows, `created_at` descending. -/
def listResumes (db : Db) (uid : String) : List ResumeRow :=
  sortByKey (fun a b => decide (b.created_at ≤ a.created_at))
    (db.resumes.filter (fun r => r.user_id == uid))

/-- GET /api/resumes/:id (lines 132-150): `none` models the 404. -/
def getResume (db : Db) (uid rid : String) : Option ResumeRow :=
  (db.resumes.filter (fun r => r.user_id == uid && r.id == rid)).head?

/-- Everything the read endpoints may reveal to user `uid`: their own
session and resume rows, the question and answer rows of their own
sessions, and the public `jobs` and `companies` tables. -/
def userView (db : Db) (uid : String) :
    List SessionRow × List ResumeRow × List QuestionRow ×
    List AnswerRow × List JobRow × List CompanyRow :=
  (db.sessions.filter (fun s => s.user_id == uid),
   db.resumes.filter (fun r => r.user_id == uid),
   db.questions.filter (fun q => decide (0 <
     ((db.sessions.filter (fun s => s.user_id == uid)).filter
       (fun s => s.id == q.interview_session_id)).length)),
   db.answers.filter (fun a => decide (0 <
     ((db.sessions.filter (fun s => s.user_id == uid)).filter
       (fun s => s.id == a.interview_session_id)).length)),
   db.jobs, db.companies)

/-- Splitting a conjunctive filter into two successive filters. -/
theorem filter_and_split {α : Type} (p q : α → Bool) (l : List α) :
    l.filter (fun a => p a && q a) = (l.filter p).filter q := by
  induction l with
  | nil => rfl
  | cons x xs ih =>
    by_cases hp : p x = true
    · by_cases hq : q x = true <;>
        simp [List.filter_cons, hp, hq, ih]
    · simp [List.filter_cons, hp, Bool.eq_false_iff.mpr hp, ih]

/-- A filter by `p` passes unchanged through an outer filter by a
predicate that `p` implies. -/
theorem filter_filter_of_imp {α : Type} (p q : α → Bool) (l : List α)
    (h : ∀ a, p a = true → q a = true) :
    (l.filter q).filter p = l.filter p := by
  induction l with
  | nil => rfl
  | cons x xs ih =>
    by_cases hp : p x = true
    · simp [List.filter_cons, hp, h x hp, ih]
    · by_cases hq : q x = true <;>
        simp [List.filter_cons, hp, hq, ih]

/-- Reordering a conjunctive filter. -/
theorem filter_and_comm {α : Type} (p q : α → Bool) (l : List α) :
    l.filter (fun a => p a && q a) = l.filter (fun a => q a && p a) := by
  induction l with
  | nil => rfl
  | cons x xs ih =>
    rw [List.filter_cons, List.filter_cons, Bool.and_comm, ih]

end Scoping

namespace Scoping

/-- The session-ownership check of the questions/answers endpoints,
rewritten through the user filter. -/
theorem check_filter_eq (db : Db) (u sid : String) :
    db.sessions.filter (fun s => s.id == sid && s.user_id == u)
      = (db.sessions.filter (fun s => s.user_id == u)).filter
          (fun s => s.id == sid) := by
  rw [filter_and_comm (fun s => s.id == sid) (fun s => s.user_id == u)
      db.sessions,
    filter_and_split (fun s => s.user_id == u) (fun s => s.id == sid)
      db.sessions]

/-- The single-session lookup of GET /api/interviews/:id, rewritten
through the user filter. -/
theorem session_filter_eq (db : Db) (u rid : String) :
    db.sessions.filter (fun s => s.user_id == u && s.id == rid)
      = (db.sessions.filter (fun s => s.user_id == u)).filter
          (fun s => s.id == rid) :=
  filter_and_split (fun s => s.user_id == u) (fun s => s.id == rid)
    db.sessions

/-- The single-resume lookup of GET /api/resumes/:id, rewritten through
the user filter. -/
theorem resume_filter_eq (db : Db) (u rid : String) :
    db.resumes.filter (fun r => r.user_id == u && r.id == rid)
      = (db.resumes.filter (fun r => r.user_id == u)).filter
          (fun r => r.id == rid) :=
  filter_and_split (fun r => r.user_id == u) (fun r => r.id == rid)
    db.resumes

/-- Under an ownership witness for the session, the per-session
question filter ignores the restriction to owned-session questions. -/
theorem question_filter_through_view (db : Db) (u sid : String)
    (hpos : 0 < ((db.sessions.filter (fun s => s.user_id == u)).filter
      (fun s => s.id == sid)).length) :
    (db.questions.filter (fun q => decide (0 <
        ((db.sessions.filter (fun s => s.user_id == u)).filter
          (fun s => s.id == q.interview_session_id)).length))).filter
      (fun q => q.interview_session_id == sid)
    = db.questions.filter (fun q => q.interview_session_id == sid) := by
  apply filter_filter_of_imp
  intro a ha
  rw [beq_iff_eq] at ha
  rw [ha]
  exact decide_eq_true hpos

/-- Likewise for the per-session answer filter. -/
theorem answer_filter_through_view (db : Db) (u sid : String)
    (hpos : 0 < ((db.sessions.filter (fun s => s.user_id == u)).filter
      (fun s => s.id == sid)).length) :
    (db.answers.filter (fun a => decide (0 <
        ((db.sessions.filter (fun s => s.user_id == u)).filter
          (fun s => s.id == a.interview_session_id)).length))).filter
      (fun a => a.interview_session_id == sid)
    = db.answers.filter (fun a => a.interview_session_id == sid) := by
  apply filter_filter_of_imp
  intro a ha
  rw [beq_iff_eq] at ha
  rw [ha]
  exact decide_eq_true hpos

end Scoping

/-- C9 evaluated on the code: GET /api/interviews/:id never answers the
claimed 404, because its query is invalid SQL and the driver throws on
every request (`is` alias); the remaining reads are scoped as claimed.
Conjunct 1: with the thrown query, every request - cross-user or owner
alike - answers 500 `Internal server error`.  Conjunct 2: the intent
recorded by the dead branch below the query, and the working
subresources: for an id whose rows all belong to a different user the
dead branch would answer 404, and GET /api/interviews/:id/questions,
/answers answer 404.  Conjunct 3: GET /api/resumes/:id answers 404
cross-user.  Conjunct 4: the list endpoints return only rows whose
`user_id` is the requester.  Conjunct 5: every endpoint response is a
function of the requester's own rows and the public jobs/companies
tables - two databases agreeing on the requester's view produce
identical responses - so no response depends on or reveals another
user's rows. -/
theorem c9_scoped_reads_and_broken_interview_route :
    (∀ db u rid,
      Scoping.getInterviewRoute db u rid Scoping.QueryOutcome.sqlError
        = ⟨500, some "Internal server error", none⟩) ∧
    (∀ db u v rid, u ≠ v →
      (∀ s ∈ db.sessions, s.id = rid → s.user_id = v) →
      Scoping.getInterviewRoute db u rid Scoping.QueryOutcome.ok
        = ⟨404, some "Interview session not found", none⟩ ∧
      Scoping.getInterviewQuestions db u rid = none ∧
      Scoping.getInterviewAnswers db u rid = none) ∧
    (∀ db u v rid, u ≠ v →
      (∀ r ∈ db.resumes, r.id = rid → r.user_id = v) →
      Scoping.getResume db u rid = none) ∧
    (∀ db u,
      (∀ s ∈ Scoping.listInterviews db u, s.user_id = u) ∧
      (∀ r ∈ Scoping.listResumes db u, r.user_id = u)) ∧
    (∀ db db' u, Scoping.userView db u = Scoping.userView db' u →
      (∀ rid o, Scoping.getInterviewRoute db u rid o
        = Scoping.getInterviewRoute db' u rid o) ∧
      (∀ sid, Scoping.getInterviewQuestions db u sid
        = Scoping.getInterviewQuestions db' u sid) ∧
      (∀ sid, Scoping.getInterviewAnswers db u sid
        = Scoping.getInterviewAnswers db' u sid) ∧
      (∀ rid, Scoping.getResume db u rid = Scoping.getResume db' u rid) ∧
      Scoping.listInterviews db u = Scoping.listInterviews db' u ∧
      Scoping.listResumes db u = Scoping.listResumes db' u) := by
  refine ⟨fun db u rid => rfl, ?_, ?_, ?_, ?_⟩
  · intro db u v rid hne howner
    have hnil1 : db.sessions.filter
        (fun s => s.user_id == u && s.id == rid) = [] := by
      rw [List.filter_eq_nil_iff]
      intro s hs hpred
      rw [Bool.and_eq_true, beq_iff_eq, beq_iff_eq] at hpred
      exact hne (hpred.1.symm.trans (howner s hs hpred.2))
    have hnil2 : db.sessions.filter
        (fun s => s.id == rid && s.user_id == u) = [] := by
      rw [List.filter_eq_nil_iff]
      intro s hs hpred
      rw [Bool.and_eq_true, beq_iff_eq, beq_iff_eq] at hpred
      exact hne (hpred.2.symm.trans (howner s hs hpred.1))
    refine ⟨?_, ?_, ?_⟩
    · simp [Scoping.getInterviewRoute, Scoping.interviewByIdRows, hnil1]
    · simp [Scoping.getInterviewQuestions, hnil2]
    · simp [Scoping.getInterviewAnswers, hnil2]
  · intro db u v rid hne howner
    have hnil : db.resumes.filter
        (fun r => r.user_id == u && r.id == rid) = [] := by
      rw [List.filter_eq_nil_iff]
      intro r hr hpred
      rw [Bool.and_eq_true, beq_iff_eq, beq_iff_eq] at hpred
      exact hne (hpred.1.symm.trans (howner r hr hpred.2))
    simp [Scoping.getResume, hnil]
  · intro db u
    constructor
    · intro s hs
      have h1 : s ∈ Scoping.sortByKey
          (fun a b => decide (b.created_at ≤ a.created_at))
          (db.sessions.filter (fun w => w.user_id == u)) :=
        List.take_subset _ _ hs
      have h2 := (Scoping.mem_sortByKey _ _ _).mp h1
      exact beq_iff_eq.mp (List.mem_filter.mp h2).2
    · intro r hr
      have h2 := (Scoping.mem_sortByKey _ _ _).mp hr
      exact beq_iff_eq.mp (List.mem_filter.mp h2).2
  · intro db db' u hview
    have h1 := congrArg (fun t => t.1) hview
    have h2 := congrArg (fun t => t.2.1) hview
    have h3 := congrArg (fun t => t.2.2.1) hview
    have h4 := congrArg (fun t => t.2.2.2.1) hview
    have h5 := congrArg (fun t => t.2.2.2.2.1) hview
    have h6 := congrArg (fun t => t.2.2.2.2.2) hview
    simp only [Scoping.userView] at h1 h2 h3 h4 h5 h6
    refine ⟨?_, ?_, ?_, ?_, ?_, ?_⟩
    · intro rid o
      cases o with
      | sqlError => rfl
      | ok =>
        have hsf : db.sessions.filter
              (fun s => s.user_id == u && s.id == rid)
            = db'.sessions.filter
              (fun s => s.user_id == u && s.id == rid) := by
          rw [Scoping.session_filter_eq, Scoping.session_filter_eq, h1]
        have hjob : ∀ s, Scoping.jobTitleOf db s
            = Scoping.jobTitleOf db' s := by
          intro s
          simp only [Scoping.jobTitleOf, h5]
        have hcomp : ∀ s, Scoping.companyNameOf db s
            = Scoping.companyNameOf db' s := by
          intro s
          simp only [Scoping.companyNameOf, h5, h6]
        have hrows : Scoping.interviewByIdRows db u rid
            = Scoping.interviewByIdRows db' u rid := by
          simp only [Scoping.interviewByIdRows, hsf]
          cases hh : (db'.sessions.filter
              (fun s => s.user_id == u && s.id == rid)).head? with
          | none => rfl
          | some s =>
            show some (s, Scoping.jobTitleOf db s,
                Scoping.companyNameOf db s)
              = some (s, Scoping.jobTitleOf db' s,
                Scoping.companyNameOf db' s)
            rw [hjob s, hcomp s]
        simp only [Scoping.getInterviewRoute, hrows]
    · intro sid
      have hcf : db.sessions.filter
            (fun s => s.id == sid && s.user_id == u)
          = db'.sessions.filter
            (fun s => s.id == sid && s.user_id == u) := by
        rw [Scoping.check_filter_eq, Scoping.check_filter_eq, h1]
      simp only [Scoping.getInterviewQuestions, hcf]
      by_cases hpos : 0 < (db'.sessions.filter
          (fun s => s.id == sid && s.user_id == u)).length
      · rw [if_pos hpos, if_pos hpos]
        have hpos' : 0 < ((db'.sessions.filter
            (fun s => s.user_id == u)).filter
            (fun s => s.id == sid)).length := by
          rw [← Scoping.check_filter_eq]
          exact hpos
        have hposdb : 0 < ((db.sessions.filter
            (fun s => s.user_id == u)).filter
            (fun s => s.id == sid)).length := by
          rw [h1]
          exact hpos'
        have hqf : db.questions.filter
              (fun q => q.interview_session_id == sid)
            = db'.questions.filter
              (fun q => q.interview_session_id == sid) := by
          rw [← Scoping.question_filter_through_view db u sid hposdb,
            ← Scoping.question_filter_through_view db' u sid hpos', h3]
        simp only [Scoping.getSessionQuestionsModel, hqf]
      · rw [if_neg hpos, if_neg hpos]
    · intro sid
      have hcf : db.sessions.filter
            (fun s => s.id == sid && s.user_id == u)
          = db'.sessions.filter
            (fun s => s.id == sid && s.user_id == u) := by
        rw [Scoping.check_filter_eq, Scoping.check_filter_eq, h1]
      simp only [Scoping.getInterviewAnswers, hcf]
      by_cases hpos : 0 < (db'.sessions.filter
          (fun s => s.id == sid && s.user_id == u)).length
      · rw [if_pos hpos, if_pos hpos]
        have hpos' : 0 < ((db'.sessions.filter
            (fun s => s.user_id == u)).filter
            (fun s => s.id == sid)).length := by
          rw [← Scoping.check_filter_eq]
          exact hpos
        have hposdb : 0 < ((db.sessions.filter
            (fun s => s.user_id == u)).filter
            (fun s => s.id == sid)).length := by
          rw [h1]
          exact hpos'
        have haf : db.answers.filter
              (fun a => a.interview_session_id == sid)
            = db'.answers.filter
              (fun a => a.interview_session_id == sid) := by
          rw [← Scoping.answer_filter_through_view db u sid hposdb,
            ← Scoping.answer_filter_through_view db' u sid hpos', h4]
        simp only [Scoping.getSessionAnswersModel, haf]
      · rw [if_neg hpos, if_neg hpos]
    · intro rid
      simp only [Scoping.getResume]
      rw [Scoping.resume_filter_eq, Scoping.resume_filter_eq, h2]
    · simp only [Scoping.listInterviews]
      rw [h1]
    · simp only [Scoping.listResumes]
      rw [h2]

/-- The failing input of C9 evaluated concretely: with the thrown query
both alice (a stranger) and bob (the owner) get 500 from GET
/api/interviews/:id - the route never answers 404 or returns a row -
while the questions subresource and the resume read still answer 404
cross-user. -/
theorem c9_failing_input_witness :
    Scoping.getInterviewRoute
        ⟨[⟨"s1", "bob", none, 0, "session payload"⟩], [], [], [], [], []⟩
        "alice" "s1" Scoping.QueryOutcome.sqlError
      = ⟨500, some "Internal server error", none⟩ ∧
    Scoping.getInterviewRoute
        ⟨[⟨"s1", "bob", none, 0, "session payload"⟩], [], [], [], [], []⟩
        "bob" "s1" Scoping.QueryOutcome.sqlError
      = ⟨500, some "Internal server error", none⟩ ∧
    Scoping.getInterviewQuestions
        ⟨[⟨"s1", "bob", none, 0, "session payload"⟩], [],
          [⟨"qq", "s1", 1, "question text"⟩], [], [], []⟩
        "alice" "s1" = none ∧
    Scoping.getResume
        ⟨[], [⟨"r1", "bob", 0, "resume payload"⟩], [], [], [], []⟩
        "alice" "r1" = none := by
  refine ⟨?_, ?_, ?_, ?_⟩ <;> decide

/-- Concrete run for the amended C2: the tick after AI speech starts
forces `isUserSpeaking` back to false, and recognition was stopped when
the AI began speaking. -/
theorem c2_tick_during_ai_witness :
    (RealtimeVoice.runFrom RealtimeVoice.init
        [RealtimeVoice.VEvent.vadTick 0 (-40),
         RealtimeVoice.VEvent.aiStart 0,
         RealtimeVoice.VEvent.vadTick 100 (-40)]).map
      (fun s => (s.isAISpeaking, s.isUserSpeaking, s.recognitionActive)) =
      some (true, false, false) := by decide

/-- Concrete error types for the amended C3: `no-speech` restarts the
realtime recognizer, `network` restarts the natural one, `no-speech`
does not restart the natural one. -/
theorem c3_restart_witness :
    RecognitionRecovery.realtimeOnerrorRestarts "no-speech" true = true ∧
    RecognitionRecovery.naturalOnerrorRestarts "network" true false = true ∧
    RecognitionRecovery.naturalOnerrorRestarts "no-speech" true false
      = false := by
  refine ⟨?_, ?_, ?_⟩ <;> decide

/-- Concrete register requests for C4: a duplicate (case-insensitive)
email yields 409; on a fresh table the user is stored with the hashed
password. -/
theorem c4_register_witness :
    (AuthRoutes.registerRoute (fun _ => true) (fun p => p ++ "#h")
        (fun i e => i ++ ":" ++ e) "u2"
        [⟨"u1", "a@b.com", "secret#h"⟩] ⟨"A@B.com", "secret"⟩).1.status
      = 409 ∧
    (AuthRoutes.registerRoute (fun _ => true) (fun p => p ++ "#h")
        (fun i e => i ++ ":" ++ e) "u1" [] ⟨"a@b.com", "secret"⟩).2
      = [⟨"u1", "a@b.com", "secret#h"⟩] := by
  refine ⟨?_, ?_⟩ <;> decide

/-- Concrete login requests for C5: matching credentials yield 200 with
token, user and cookie; a wrong password yields 401. -/
theorem c5_login_witness :
    AuthRoutes.loginRoute (fun _ => true)
        (fun pw h => h == pw ++ "#h") (fun i e => i ++ ":" ++ e)
        [⟨"u1", "a@b.com", "secret#h"⟩] ⟨"a@b.com", "secret"⟩ =
      ⟨200, none, some "u1:a@b.com", some ("u1", "a@b.com"),
        some "u1:a@b.com"⟩ ∧
    AuthRoutes.loginRoute (fun _ => true)
        (fun pw h => h == pw ++ "#h") (fun i e => i ++ ":" ++ e)
        [⟨"u1", "a@b.com", "secret#h"⟩] ⟨"a@b.com", "wrongpw"⟩ =
      ⟨401, some "Invalid credentials", none, none, none⟩ := by
  refine ⟨?_, ?_⟩ <;> decide

/-- Concrete requests for C6: no credentials is rejected as missing; a
cookie takes precedence over a Bearer header (the header token would
not verify); a bad Bearer token is rejected as invalid. -/
theorem c6_require_auth_witness :
    AuthMiddleware.requireAuth (fun _ => none)
        ⟨none, some "Token abc"⟩ = .missing ∧
    AuthMiddleware.requireAuth
        (fun t => if t = "cookie-tok" then some ("u1", "e@x.com") else none)
        ⟨some "cookie-tok", some "Bearer header-tok"⟩ = .ok "u1" "e@x.com" ∧
    AuthMiddleware.requireAuth (fun _ => none)
        ⟨none, some "Bearer bad"⟩ = .invalid := by
  refine ⟨?_, ?_, ?_⟩ <;> decide

/-- Concrete files for C7: a small DOCX is accepted, a PDF and an
oversized DOCX are rejected; a small webm audio file is accepted, a
video mimetype is rejected. -/
theorem c7_upload_witness :
    Uploads.resumeUploadAccepts Uploads.docxMime 1024 = true ∧
    Uploads.resumeUploadAccepts "application/pdf" 1024 = false ∧
    Uploads.resumeUploadAccepts Uploads.docxMime (5 * 1024 * 1024 + 1)
      = false ∧
    Uploads.audioUploadAccepts "audio/webm" 1024 = true ∧
    Uploads.audioUploadAccepts "video/mp4" 1024 = false := by
  refine ⟨?_, ?_, ?_, ?_, ?_⟩ <;> decide
